import Mathlib

/-!
Shallow embedding of the AppDaemon "EnCh" entity-check app
(`apps/ench/ench.py`).  The app's `initialize` sets up a configuration
dictionary `self.cfg`, schedules the battery and unavailable checks with
`run_every`, and the two check callbacks scan the entity-state store,
log per-entity findings, and optionally dispatch one notification
service call.

The host runtime's state store is modelled as an association list from
entity id to the entity's state record; the external effects of a check
run (log lines, service calls, state writes) are modelled as an explicit
trace of `Effect` values returned by the check.
-/

/-- Module-level constant `BATTERY_MIN_LEVEL = 20`. -/
def BATTERY_MIN_LEVEL : Int := 20

/-- Module-level constant `INTERVAL_BATTERY_MIN = 180`. -/
def INTERVAL_BATTERY_MIN : Int := 180

/-- Module-level constant `INTERVAL_UNAVAILABLE_MIN = 60`. -/
def INTERVAL_UNAVAILABLE_MIN : Int := 60

/-- Module-level constant `EXCLUDE`: the two built-in excluded entity ids. -/
def EXCLUDE : List String :=
  ["binary_sensor.updater", "persistent_notification.config_entry_discovery"]

/-- Module-level constant `BAD_STATES = ["unavailable", "unknown"]`. -/
def BAD_STATES : List String := ["unavailable", "unknown"]

/-- The record returned by `get_state(entity_id=e, attribute="all")`:
the entity's `state` string and, inside its `attributes` dictionary, the
optional `battery_level` attribute (`none` models a missing attribute). -/
structure EntityState where
  state : String
  battery_level : Option Int
  deriving Repr, DecidableEq

/-- The host's entity-state store: a dictionary from entity id to state
record, modelled as an association list (dictionary keys are unique). -/
abbrev Store := List (String × EntityState)

/-- Dictionary lookup in the store, as `get_state(entity_id=e, attribute="all")`. -/
def lookupEntity : Store → String → Option EntityState
  | [], _ => none
  | (k, v) :: rest, e => if k = e then some v else lookupEntity rest e

/-- The keys of the store, as iterating `self.get_state()` yields them. -/
def entityIds (store : Store) : List String :=
  store.map Prod.fst

/-- The `cfg["battery"]` sub-dictionary built by `initialize`. -/
structure BatteryCfg where
  interval_min : Int
  min_level : Int
  deriving Repr, DecidableEq

/-- The `cfg["unavailable"]` sub-dictionary built by `initialize`. -/
structure UnavailCfg where
  interval_min : Int
  deriving Repr, DecidableEq

/-- The app configuration `self.cfg` built by `initialize`.  `notify`
is `none` when the `notify` key is absent (`self.args.get("notify")`). -/
structure Cfg where
  notify : Option String
  show_friendly_name : Bool
  battery : Option BatteryCfg
  unavailable : Option UnavailCfg
  exclude : List String
  deriving Repr, DecidableEq

/-- Python truthiness of `self.cfg["notify"]`: `None` and the empty
string are falsy, any other string is truthy. -/
def notifyTruthy : Option String → Bool
  | none => false
  | some s => !s.isEmpty

/-- The service name `str(self.cfg["notify"]).replace(".", "/")`
(replacing a one-character pattern substitutes character by character). -/
def notifyService : Option String → String
  | none => ""
  | some s => String.mk (s.data.map fun c => if c = '.' then '/' else c)

/-- The external effects a check run can produce: a log line (tagged
with the entity id when it is the per-entity finding line, `none` for
the generic progress lines), a `call_service` dispatch, or an entity
state write (which this app never performs). -/
inductive Effect where
  | logInfo (entity : Option String)
  | callService (service : String) (message : String)
  | setState (entity : String) (value : String)
  deriving Repr, DecidableEq

/-- Entities for which a per-entity log line was emitted in a trace. -/
def loggedEntities (effects : List Effect) : List String :=
  effects.filterMap fun eff =>
    match eff with
    | Effect.logInfo (some e) => some e
    | _ => none

/-- Check whether an effect is a `call_service` dispatch. -/
def isServiceCall : Effect → Bool
  | Effect.callService _ _ => true
  | _ => false

/-- The condition of line 147, `battery_level and battery_level <= min_level`:
the attribute must be truthy (present and nonzero) before the comparison
with the threshold is made. -/
def batteryCond (minLevel : Int) (st : EntityState) : Bool :=
  match st.battery_level with
  | none => false
  | some bl => bl ≠ 0 && bl ≤ minLevel

/-- The condition of line 184 on the fetched state, `state in BAD_STATES`. -/
def unavailCond (st : EntityState) : Bool :=
  BAD_STATES.contains st.state

/-- Python's `str.lower()`: lowercase the string character by character
(entity ids are ASCII, where per-code-point lowercasing is exact). -/
def strLower (s : String) : String :=
  String.mk (s.data.map Char.toLower)

/-- Lexicographic at-most comparison of code-point lists, as Python
compares strings. -/
def lexLe : List Char → List Char → Bool
  | [], _ => true
  | _ :: _, [] => false
  | a :: as, b :: bs =>
    if a < b then true
    else if b < a then false
    else lexLe as bs

/-- Python's `<=` on strings: lexicographic comparison by code point. -/
def strLe (a b : String) : Bool :=
  lexLe a.data b.data

/-- Insert a string into a sorted list, keeping it sorted. -/
def ordInsert (a : String) : List String → List String
  | [] => [a]
  | b :: l => if strLe a b then a :: b :: l else b :: ordInsert a l

/-- Python's `sorted()` on a list of strings (insertion sort; `sorted`
is stable, and on strings stability cannot change the output list). -/
def pySort : List String → List String
  | [] => []
  | a :: l => ordInsert a (pySort l)

/-- The entity ids surviving the exclusion filter of lines 136-138 /
172-174: `filter(lambda x: x.lower() not in self.cfg["exclude"], self.get_state())`. -/
def notExcluded (cfg : Cfg) (store : Store) : List String :=
  (entityIds store).filter fun x => !(cfg.exclude.contains (strLower x))

/-- The iteration order of the check loops: `sorted(entities)` over the
filtered entity ids (Python sorts strings lexicographically by code point). -/
def sortedEntities (cfg : Cfg) (store : Store) : List String :=
  pySort (notExcluded cfg store)

/-- The notification message of `check_battery` (lines 160-161). -/
def batteryMessage (results : List String) : String :=
  "🔋 Battery low (" ++ toString results.length ++ "): " ++
    String.intercalate ", " results

/-- The notification message of `check_unavailable` (lines 196-197). -/
def unavailMessage (results : List String) : String :=
  "👩‍⚕️ Unavailable entities (" ++ toString results.length ++ "): " ++
    String.intercalate ", " results

/-- The loop of `check_battery` (lines 140-154): for each entity in
order, fetch its state record; when `battery_level` is truthy and at
most the threshold, append the entity to `results` and log it.  `acc` is
the `results` list accumulated so far; the function returns the final
`results` list and the emitted per-entity effects.  A lookup miss cannot
occur for ids drawn from the store's keys and contributes nothing. -/
def batteryLoop (store : Store) (minLevel : Int) :
    List String → List String → List String × List Effect
  | [], acc => (acc, [])
  | entity :: rest, acc =>
    match lookupEntity store entity with
    | none => batteryLoop store minLevel rest acc
    | some st =>
      if batteryCond minLevel st then
        let r := batteryLoop store minLevel rest (acc ++ [entity])
        (r.1, Effect.logInfo (some entity) :: r.2)
      else
        batteryLoop store minLevel rest acc

/-- The loop of `check_unavailable` (lines 176-190): for each entity in
order, fetch its state record; when its state is a bad state and the
entity is not already in `results`, append it and log it. -/
def unavailLoop (store : Store) :
    List String → List String → List String × List Effect
  | [], acc => (acc, [])
  | entity :: rest, acc =>
    match lookupEntity store entity with
    | none => unavailLoop store rest acc
    | some st =>
      if unavailCond st && !acc.contains entity then
        let r := unavailLoop store rest (acc ++ [entity])
        (r.1, Effect.logInfo (some entity) :: r.2)
      else
        unavailLoop store rest acc

/-- The outcome of one check run: the `results` list, the trace of
external effects, and the app configuration after the run. -/
structure CheckRun where
  results : List String
  effects : List Effect
  cfgAfter : Cfg
  deriving Repr, DecidableEq

/-- Body of `check_battery` given the `min_level` threshold read from
`cfg["battery"]` (lines 130-164): opening log line, loop over the sorted
filtered entities, conditional notification, closing summary log line. -/
def batteryRun (cfg : Cfg) (minLevel : Int) (store : Store) : CheckRun :=
  let r := batteryLoop store minLevel (sortedEntities cfg store) []
  let svc : List Effect :=
    if notifyTruthy cfg.notify && !r.1.isEmpty then
      [Effect.callService (notifyService cfg.notify) (batteryMessage r.1)]
    else []
  { results := r.1
    effects := Effect.logInfo none :: (r.2 ++ svc ++ [Effect.logInfo none])
    cfgAfter := cfg }

/-- `EnCh.check_battery`: reads `self.cfg["battery"]["min_level"]`, so a
run only proceeds when the battery section was configured (`none` models
the `KeyError` of an unscheduled call). -/
def check_battery (cfg : Cfg) (store : Store) : Option CheckRun :=
  match cfg.battery with
  | some bat => some (batteryRun cfg bat.min_level store)
  | none => none

/-- `EnCh.check_unavailable` (lines 166-200): opening log line, loop over
the sorted filtered entities, conditional notification, closing summary
log line.  It reads no per-check configuration. -/
def check_unavailable (cfg : Cfg) (store : Store) : CheckRun :=
  let r := unavailLoop store (sortedEntities cfg store) []
  let svc : List Effect :=
    if notifyTruthy cfg.notify && !r.1.isEmpty then
      [Effect.callService (notifyService cfg.notify) (unavailMessage r.1)]
    else []
  { results := r.1
    effects := Effect.logInfo none :: (r.2 ++ svc ++ [Effect.logInfo none])
    cfgAfter := cfg }

/-- A configuration section of `self.args` (`battery` or `unavailable`):
a dictionary with integer values, modelled as an association list. -/
abbrev ConfigMap := List (String × Int)

/-- Dictionary lookup in a configuration section (`section.get(key)`). -/
def cfgGet : ConfigMap → String → Option Int
  | [], _ => none
  | (k, v) :: rest, key => if k = key then some v else cfgGet rest key

/-- The `self.args` dictionary handed to the app by the runtime.
`battery` is `none` exactly when `"battery" in self.args` is false;
likewise for `unavailable` and `exclude` and the other keys. -/
structure Args where
  notify : Option String
  show_friendly_name : Option Bool
  battery : Option ConfigMap
  unavailable : Option ConfigMap
  exclude : List String
  deriving Repr, DecidableEq

/-- Interval resolution of lines 62-67 / 87-92: take `interval_min` when
present, else the legacy `interval` times 60, else the given default. -/
def resolveIntervalMin (m : ConfigMap) (dflt : Int) : Int :=
  match cfgGet m "interval_min" with
  | some v => v
  | none =>
    match cfgGet m "interval" with
    | some i => i * 60
    | none => dflt

/-- Which check a `run_every` registration is for. -/
inductive CheckKind where
  | battery
  | unavailable
  deriving Repr, DecidableEq

/-- One `run_every(callback, self.datetime() + timedelta(seconds=120), period)`
registration: the callback, the delay of the first run in seconds, and
the repetition period in seconds. -/
structure Schedule where
  kind : CheckKind
  delaySec : Int
  periodSec : Int
  deriving Repr, DecidableEq

/-- The error `initialize` can raise: the `NameError` from reading the
unbound local `battery_cfg` at line 118. -/
inductive InitError where
  | nameError
  deriving Repr, DecidableEq

deriving instance DecidableEq for Except

/-- What running `initialize` produces: the `run_every` registrations it
made and either the finished configuration or the error it raised after
making them. -/
structure InitResult where
  schedules : List Schedule
  outcome : Except InitError Cfg
  deriving Repr, DecidableEq

/-- The merged exclusion list of lines 102-105: the set of built-in
`EXCLUDE` entries united with the lowercased configured entries, stored
sorted. -/
def mergedExclude (userExclude : List String) : List String :=
  pySort ((EXCLUDE ++ userExclude.map strLower).dedup)

/-- `EnCh.initialize` (lines 50-128): build `self.cfg`, register the
battery check when `"battery" in self.args` and the unavailable check
when `self.args.get("unavailable")` is truthy (a nonempty section), merge
the exclusions, and finally evaluate `"interval" in battery_cfg`, which
raises `NameError` when the battery branch never bound `battery_cfg`. -/
def enchInit (args : Args) : InitResult :=
  let bat : Option BatteryCfg × List Schedule :=
    match args.battery with
    | some bc =>
      let im := resolveIntervalMin bc INTERVAL_BATTERY_MIN
      (some { interval_min := im,
              min_level := (cfgGet bc "min_level").getD BATTERY_MIN_LEVEL },
       [{ kind := CheckKind.battery, delaySec := 120, periodSec := im * 60 }])
    | none => (none, [])
  let unav : Option UnavailCfg × List Schedule :=
    match args.unavailable with
    | some uc =>
      if uc.isEmpty then (none, [])
      else
        let im := resolveIntervalMin uc INTERVAL_UNAVAILABLE_MIN
        (some { interval_min := im },
         [{ kind := CheckKind.unavailable, delaySec := 120, periodSec := im * 60 }])
    | none => (none, [])
  let cfg : Cfg :=
    { notify := args.notify
      show_friendly_name := args.show_friendly_name.getD true
      battery := bat.1
      unavailable := unav.1
      exclude := mergedExclude args.exclude }
  { schedules := bat.2 ++ unav.2
    outcome :=
      match args.battery with
      | none => Except.error InitError.nameError
      | some _ => Except.ok cfg }

/-! Helper lemmas about the check loops. -/

/-- Whether the battery check reports a given entity id: lookup followed
by the truthy-threshold condition. -/
def batteryHit (store : Store) (minLevel : Int) (e : String) : Bool :=
  match lookupEntity store e with
  | some st => batteryCond minLevel st
  | none => false

/-- Whether the unavailable check would flag a given entity id. -/
def unavailHit (store : Store) (e : String) : Bool :=
  match lookupEntity store e with
  | some st => unavailCond st
  | none => false

theorem batteryLoop_results (store : Store) (minLevel : Int) (es : List String) :
    ∀ acc, (batteryLoop store minLevel es acc).1
      = acc ++ es.filter (batteryHit store minLevel) := by
  induction es with
  | nil => intro acc; simp [batteryLoop]
  | cons e rest ih =>
    intro acc
    cases h : lookupEntity store e with
    | none =>
      simp [batteryLoop, h, ih, List.filter_cons, batteryHit]
    | some st =>
      cases hc : batteryCond minLevel st with
      | false =>
        simp [batteryLoop, h, hc, ih, List.filter_cons, batteryHit]
      | true =>
        simp [batteryLoop, h, hc, ih, List.filter_cons, batteryHit]

theorem batteryLoop_logged (store : Store) (minLevel : Int) (es : List String) :
    ∀ acc, loggedEntities (batteryLoop store minLevel es acc).2
      = es.filter (batteryHit store minLevel) := by
  induction es with
  | nil => intro acc; simp [batteryLoop, loggedEntities]
  | cons e rest ih =>
    intro acc
    cases h : lookupEntity store e with
    | none =>
      simp [batteryLoop, h, ih, List.filter_cons, batteryHit]
    | some st =>
      cases hc : batteryCond minLevel st with
      | false =>
        simp [batteryLoop, h, hc, ih, List.filter_cons, batteryHit]
      | true =>
        simp [batteryLoop, h, hc, List.filter_cons, batteryHit, loggedEntities,
          List.filterMap_cons]
        simpa [loggedEntities] using ih (acc ++ [e])

theorem batteryLoop_effects_logOnly (store : Store) (minLevel : Int)
    (es : List String) :
    ∀ acc eff, eff ∈ (batteryLoop store minLevel es acc).2 →
      ∃ o, eff = Effect.logInfo o := by
  induction es with
  | nil => intro acc eff hm; simp [batteryLoop] at hm
  | cons e rest ih =>
    intro acc eff hm
    cases h : lookupEntity store e with
    | none =>
      simp only [batteryLoop, h] at hm
      exact ih acc eff hm
    | some st =>
      cases hc : batteryCond minLevel st with
      | false =>
        simp only [batteryLoop, h, hc, Bool.false_eq_true, if_false] at hm
        exact ih acc eff hm
      | true =>
        simp only [batteryLoop, h, hc, if_true] at hm
        rcases List.mem_cons.mp hm with h1 | h2
        · exact ⟨some e, h1⟩
        · exact ih (acc ++ [e]) eff h2

theorem unavailHit_of_lookup (store : Store) (e : String) (st : EntityState)
    (h : lookupEntity store e = some st) :
    unavailHit store e = unavailCond st := by
  simp [unavailHit, h]

theorem unavailLoop_results_mem (store : Store) (es : List String) :
    ∀ acc x, x ∈ (unavailLoop store es acc).1 ↔
      x ∈ acc ∨ (x ∈ es ∧ unavailHit store x = true) := by
  induction es with
  | nil => intro acc x; simp [unavailLoop]
  | cons e rest ih =>
    intro acc x
    cases h : lookupEntity store e with
    | none =>
      have hh : unavailHit store e = false := by simp [unavailHit, h]
      simp only [unavailLoop, h]
      rw [ih]
      simp only [List.mem_cons]
      constructor
      · rintro (ha | ⟨hr, hx⟩)
        · exact Or.inl ha
        · exact Or.inr ⟨Or.inr hr, hx⟩
      · rintro (ha | ⟨he | hr, hx⟩)
        · exact Or.inl ha
        · subst he; simp [hh] at hx
        · exact Or.inr ⟨hr, hx⟩
    | some st =>
      have hh : unavailHit store e = unavailCond st := unavailHit_of_lookup store e st h
      cases hu : unavailCond st with
      | false =>
        simp only [unavailLoop, h, hu, Bool.false_and, Bool.false_eq_true, if_false]
        rw [ih]
        simp only [List.mem_cons]
        constructor
        · rintro (ha | ⟨hr, hx⟩)
          · exact Or.inl ha
          · exact Or.inr ⟨Or.inr hr, hx⟩
        · rintro (ha | ⟨he | hr, hx⟩)
          · exact Or.inl ha
          · subst he; rw [hh, hu] at hx; exact absurd hx (by simp)
          · exact Or.inr ⟨hr, hx⟩
      | true =>
        cases ha : acc.contains e with
        | true =>
          have hae : e ∈ acc := by simpa using ha
          simp only [unavailLoop, h, hu, ha, Bool.not_true, Bool.and_false,
            Bool.false_eq_true, if_false]
          rw [ih]
          simp only [List.mem_cons]
          constructor
          · rintro (hacc | ⟨hr, hx⟩)
            · exact Or.inl hacc
            · exact Or.inr ⟨Or.inr hr, hx⟩
          · rintro (hacc | ⟨he | hr, hx⟩)
            · exact Or.inl hacc
            · subst he; exact Or.inl hae
            · exact Or.inr ⟨hr, hx⟩
        | false =>
          simp only [unavailLoop, h, hu, ha, Bool.not_false, Bool.and_true, if_true]
          rw [ih]
          simp only [List.mem_append, List.mem_cons, List.not_mem_nil, or_false]
          constructor
          · rintro ((hacc | he) | ⟨hr, hx⟩)
            · exact Or.inl hacc
            · subst he; exact Or.inr ⟨Or.inl rfl, by rw [hh, hu]⟩
            · exact Or.inr ⟨Or.inr hr, hx⟩
          · rintro (hacc | ⟨he | hr, hx⟩)
            · exact Or.inl (Or.inl hacc)
            · exact Or.inl (Or.inr he)
            · exact Or.inr ⟨hr, hx⟩

theorem unavailLoop_results_structure (store : Store) (es : List String) :
    ∀ acc, ∃ t, (unavailLoop store es acc).1 = acc ++ t ∧ t.Sublist es := by
  induction es with
  | nil => intro acc; exact ⟨[], by simp [unavailLoop], List.nil_sublist _⟩
  | cons e rest ih =>
    intro acc
    cases h : lookupEntity store e with
    | none =>
      obtain ⟨t, ht, hs⟩ := ih acc
      refine ⟨t, ?_, hs.cons e⟩
      simp only [unavailLoop, h]
      exact ht
    | some st =>
      cases hg : (unavailCond st && !acc.contains e) with
      | false =>
        obtain ⟨t, ht, hs⟩ := ih acc
        refine ⟨t, ?_, hs.cons e⟩
        simp only [unavailLoop, h, hg, Bool.false_eq_true, if_false]
        exact ht
      | true =>
        obtain ⟨t, ht, hs⟩ := ih (acc ++ [e])
        refine ⟨e :: t, ?_, hs.cons₂ e⟩
        simp only [unavailLoop, h, hg, if_true]
        rw [ht, List.append_assoc]
        rfl

theorem unavailLoop_logged_mem (store : Store) (es : List String) :
    ∀ acc x, x ∉ acc →
      (x ∈ loggedEntities (unavailLoop store es acc).2 ↔
        x ∈ es ∧ unavailHit store x = true) := by
  induction es with
  | nil => intro acc x _; simp [unavailLoop, loggedEntities]
  | cons e rest ih =>
    intro acc x hx
    cases h : lookupEntity store e with
    | none =>
      have hh : unavailHit store e = false := by simp [unavailHit, h]
      simp only [unavailLoop, h]
      rw [ih acc x hx]
      simp only [List.mem_cons]
      constructor
      · rintro ⟨hr, hhit⟩
        exact ⟨Or.inr hr, hhit⟩
      · rintro ⟨he | hr, hhit⟩
        · subst he; simp [hh] at hhit
        · exact ⟨hr, hhit⟩
    | some st =>
      have hh : unavailHit store e = unavailCond st := unavailHit_of_lookup store e st h
      cases hu : unavailCond st with
      | false =>
        simp only [unavailLoop, h, hu, Bool.false_and, Bool.false_eq_true, if_false]
        rw [ih acc x hx]
        simp only [List.mem_cons]
        constructor
        · rintro ⟨hr, hhit⟩
          exact ⟨Or.inr hr, hhit⟩
        · rintro ⟨he | hr, hhit⟩
          · subst he; rw [hh, hu] at hhit; exact absurd hhit (by simp)
          · exact ⟨hr, hhit⟩
      | true =>
        cases ha : acc.contains e with
        | true =>
          have hae : e ∈ acc := by simpa using ha
          simp only [unavailLoop, h, hu, ha, Bool.not_true, Bool.and_false,
            Bool.false_eq_true, if_false]
          rw [ih acc x hx]
          simp only [List.mem_cons]
          constructor
          · rintro ⟨hr, hhit⟩
            exact ⟨Or.inr hr, hhit⟩
          · rintro ⟨he | hr, hhit⟩
            · subst he; exact absurd hae hx
            · exact ⟨hr, hhit⟩
        | false =>
          simp only [unavailLoop, h, hu, ha, Bool.not_false, Bool.and_true, if_true]
          by_cases hxe : x = e
          · subst hxe
            simp only [loggedEntities, List.filterMap_cons]
            constructor
            · intro _
              exact ⟨List.mem_cons_self x rest, by rw [hh, hu]⟩
            · intro _
              exact List.mem_cons_self x _
          · have hx' : x ∉ acc ++ [e] := by
              simp only [List.mem_append, List.mem_cons, List.not_mem_nil, or_false]
              rintro (hc | hc)
              · exact hx hc
              · exact hxe hc
            have hrec := ih (acc ++ [e]) x hx'
            simp only [loggedEntities, List.filterMap_cons] at hrec ⊢
            simp only [List.mem_cons]
            constructor
            · rintro (hc | hc)
              · exact absurd hc hxe
              · rcases hrec.mp hc with ⟨hr, hhit⟩
                exact ⟨Or.inr hr, hhit⟩
            · rintro ⟨he2 | hr, hhit⟩
              · exact absurd he2 hxe
              · exact Or.inr (hrec.mpr ⟨hr, hhit⟩)

theorem unavailLoop_effects_logOnly (store : Store) (es : List String) :
    ∀ acc eff, eff ∈ (unavailLoop store es acc).2 →
      ∃ o, eff = Effect.logInfo o := by
  induction es with
  | nil => intro acc eff hm; simp [unavailLoop] at hm
  | cons e rest ih =>
    intro acc eff hm
    cases h : lookupEntity store e with
    | none =>
      simp only [unavailLoop, h] at hm
      exact ih acc eff hm
    | some st =>
      cases hg : (unavailCond st && !acc.contains e) with
      | false =>
        simp only [unavailLoop, h, hg, Bool.false_eq_true, if_false] at hm
        exact ih acc eff hm
      | true =>
        simp only [unavailLoop, h, hg, if_true] at hm
        rcases List.mem_cons.mp hm with h1 | h2
        · exact ⟨some e, h1⟩
        · exact ih (acc ++ [e]) eff h2

/-! Lemmas about the iteration list and the per-entity conditions.  The
executable comparison `strLe` agrees with Mathlib's linear order on
`String`, so `pySort` is `List.insertionSort` for that order. -/

theorem lexLe_iff (as : List Char) : ∀ bs : List Char,
    lexLe as bs = true ↔ ¬ List.Lex (fun a b : Char => a < b) bs as := by
  induction as with
  | nil =>
    intro bs
    exact iff_of_true rfl (List.Lex.not_nil_right _ _)
  | cons a as' ih =>
    intro bs
    cases bs with
    | nil =>
      refine iff_of_false (by simp [lexLe]) (fun hn => hn List.Lex.nil)
    | cons b bs' =>
      rcases lt_trichotomy a b with hab | hab | hab
      · simp only [lexLe, if_pos hab]
        refine iff_of_true trivial ?_
        intro h
        cases h with
        | cons h' => exact absurd hab (lt_irrefl _)
        | rel h' => exact absurd h' (lt_asymm hab)
      · subst hab
        simp only [lexLe, lt_irrefl, if_false]
        rw [List.Lex.cons_iff]
        exact ih bs'
      · have hnb : ¬ a < b := lt_asymm hab
        simp only [lexLe, if_neg hnb, if_pos hab]
        exact iff_of_false (by simp) (fun hn => hn (List.Lex.rel hab))

theorem strLe_iff (a b : String) : strLe a b = true ↔ a ≤ b := by
  rw [String.le_iff_toList_le, ← not_lt]
  exact lexLe_iff a.data b.data

theorem ordInsert_eq (a : String) (l : List String) :
    ordInsert a l = List.orderedInsert (fun x y : String => x ≤ y) a l := by
  induction l with
  | nil => rfl
  | cons b t ih =>
    simp only [ordInsert, List.orderedInsert]
    by_cases h : a ≤ b
    · rw [if_pos ((strLe_iff a b).mpr h), if_pos h]
    · rw [if_neg (fun hc => h ((strLe_iff a b).mp hc)), if_neg h, ih]

theorem pySort_eq (l : List String) :
    pySort l = List.insertionSort (fun x y : String => x ≤ y) l := by
  induction l with
  | nil => rfl
  | cons a t ih => simp only [pySort, List.insertionSort, ordInsert_eq, ih]

theorem mem_sortedEntities (cfg : Cfg) (store : Store) (x : String) :
    x ∈ sortedEntities cfg store ↔
      x ∈ entityIds store ∧ strLower x ∉ cfg.exclude := by
  simp [sortedEntities, pySort_eq, notExcluded]

theorem sortedEntities_sorted (cfg : Cfg) (store : Store) :
    List.Sorted (fun a b : String => a ≤ b) (sortedEntities cfg store) := by
  rw [sortedEntities, pySort_eq]
  exact List.sorted_insertionSort _ _

theorem sortedEntities_nodup (cfg : Cfg) (store : Store)
    (h : (entityIds store).Nodup) : (sortedEntities cfg store).Nodup := by
  rw [sortedEntities, pySort_eq]
  exact ((List.perm_insertionSort _ _).nodup_iff).mpr (h.filter _)

theorem sortedEntities_sorted_lt (cfg : Cfg) (store : Store)
    (h : (entityIds store).Nodup) :
    List.Sorted (fun a b : String => a < b) (sortedEntities cfg store) :=
  List.Sorted.lt_of_le (sortedEntities_sorted cfg store)
    (sortedEntities_nodup cfg store h)

theorem batteryCond_iff (m : Int) (st : EntityState) :
    batteryCond m st = true ↔
      ∃ bl, st.battery_level = some bl ∧ bl ≠ 0 ∧ bl ≤ m := by
  cases hb : st.battery_level with
  | none => simp [batteryCond, hb]
  | some bl => simp [batteryCond, hb]

theorem batteryHit_iff (store : Store) (m : Int) (e : String) :
    batteryHit store m e = true ↔
      ∃ st, lookupEntity store e = some st ∧ batteryCond m st = true := by
  cases h : lookupEntity store e with
  | none => simp [batteryHit, h]
  | some st => simp [batteryHit, h]

theorem unavailCond_iff (st : EntityState) :
    unavailCond st = true ↔ st.state ∈ BAD_STATES := by
  simp [unavailCond]

theorem unavailHit_iff (store : Store) (e : String) :
    unavailHit store e = true ↔
      ∃ st, lookupEntity store e = some st ∧ st.state ∈ BAD_STATES := by
  cases h : lookupEntity store e with
  | none => simp [unavailHit, h]
  | some st => simp [unavailHit, h, unavailCond_iff]

theorem mem_mergedExclude (userExclude : List String) (x : String) :
    x ∈ mergedExclude userExclude ↔
      x ∈ EXCLUDE ∨ x ∈ userExclude.map strLower := by
  simp [mergedExclude, pySort_eq]

/-! Lemmas describing a whole run of each check. -/

theorem batteryRun_results (cfg : Cfg) (minLevel : Int) (store : Store) :
    (batteryRun cfg minLevel store).results
      = (sortedEntities cfg store).filter (batteryHit store minLevel) := by
  simp [batteryRun, batteryLoop_results]

theorem batteryRun_logged (cfg : Cfg) (minLevel : Int) (store : Store) :
    loggedEntities (batteryRun cfg minLevel store).effects
      = (sortedEntities cfg store).filter (batteryHit store minLevel) := by
  have hlog := batteryLoop_logged store minLevel (sortedEntities cfg store) []
  simp only [batteryRun, loggedEntities, List.filterMap_cons, List.filterMap_append]
  cases hn : (notifyTruthy cfg.notify
      && !(batteryLoop store minLevel (sortedEntities cfg store) []).1.isEmpty) with
  | false =>
    simp only [hn, Bool.false_eq_true, if_false]
    simpa [loggedEntities] using hlog
  | true =>
    simp only [hn, if_true]
    simpa [loggedEntities] using hlog

theorem unavailRun_results_mem (cfg : Cfg) (store : Store) (x : String) :
    x ∈ (check_unavailable cfg store).results ↔
      x ∈ sortedEntities cfg store ∧ unavailHit store x = true := by
  simp only [check_unavailable]
  rw [unavailLoop_results_mem store (sortedEntities cfg store) [] x]
  simp

theorem unavailRun_logged_mem (cfg : Cfg) (store : Store) (x : String) :
    x ∈ loggedEntities (check_unavailable cfg store).effects ↔
      x ∈ sortedEntities cfg store ∧ unavailHit store x = true := by
  have hlog := unavailLoop_logged_mem store (sortedEntities cfg store) []
    x (List.not_mem_nil x)
  simp only [check_unavailable, loggedEntities, List.filterMap_cons,
    List.filterMap_append]
  cases hn : (notifyTruthy cfg.notify
      && !(unavailLoop store (sortedEntities cfg store) []).1.isEmpty) with
  | false =>
    simp only [hn, Bool.false_eq_true, if_false]
    simpa [loggedEntities] using hlog
  | true =>
    simp only [hn, if_true]
    simpa [loggedEntities] using hlog

/-- The `call_service` dispatches contained in an effect trace, in order,
as service-name / message pairs. -/
def serviceCalls (effects : List Effect) : List (String × String) :=
  effects.filterMap fun eff =>
    match eff with
    | Effect.callService s m => some (s, m)
    | _ => none

theorem serviceCalls_eq_nil_of_logOnly (l : List Effect)
    (h : ∀ eff ∈ l, ∃ o, eff = Effect.logInfo o) : serviceCalls l = [] := by
  induction l with
  | nil => rfl
  | cons e t ih =>
    obtain ⟨o, rfl⟩ := h e (List.mem_cons_self e t)
    simp only [serviceCalls, List.filterMap_cons]
    exact ih fun eff hm => h eff (List.mem_cons_of_mem _ hm)

theorem batteryRun_serviceCalls (cfg : Cfg) (minLevel : Int) (store : Store) :
    serviceCalls (batteryRun cfg minLevel store).effects
      = if notifyTruthy cfg.notify
            && !(batteryRun cfg minLevel store).results.isEmpty then
          [(notifyService cfg.notify,
            batteryMessage (batteryRun cfg minLevel store).results)]
        else [] := by
  have hloop := serviceCalls_eq_nil_of_logOnly
    (batteryLoop store minLevel (sortedEntities cfg store) []).2
    (batteryLoop_effects_logOnly store minLevel (sortedEntities cfg store) [])
  simp only [serviceCalls] at hloop
  simp only [batteryRun]
  cases hn : (notifyTruthy cfg.notify
      && !(batteryLoop store minLevel (sortedEntities cfg store) []).1.isEmpty) with
  | false =>
    simp [serviceCalls, hn, hloop]
  | true =>
    simp [serviceCalls, hn, hloop]

theorem unavailRun_serviceCalls (cfg : Cfg) (store : Store) :
    serviceCalls (check_unavailable cfg store).effects
      = if notifyTruthy cfg.notify
            && !(check_unavailable cfg store).results.isEmpty then
          [(notifyService cfg.notify,
            unavailMessage (check_unavailable cfg store).results)]
        else [] := by
  have hloop := serviceCalls_eq_nil_of_logOnly
    (unavailLoop store (sortedEntities cfg store) []).2
    (unavailLoop_effects_logOnly store (sortedEntities cfg store) [])
  simp only [serviceCalls] at hloop
  simp only [check_unavailable]
  cases hn : (notifyTruthy cfg.notify
      && !(unavailLoop store (sortedEntities cfg store) []).1.isEmpty) with
  | false =>
    simp [serviceCalls, hn, hloop]
  | true =>
    simp [serviceCalls, hn, hloop]

theorem batteryRun_no_setState (cfg : Cfg) (minLevel : Int) (store : Store)
    (e v : String) :
    Effect.setState e v ∉ (batteryRun cfg minLevel store).effects := by
  intro hm
  simp only [batteryRun, List.mem_cons, List.mem_append] at hm
  rcases hm with h1 | (h2 | h3) | h4
  · exact Effect.noConfusion h1
  · obtain ⟨o, ho⟩ := batteryLoop_effects_logOnly store minLevel
      (sortedEntities cfg store) [] _ h2
    exact Effect.noConfusion ho
  · revert h3
    cases hn : (notifyTruthy cfg.notify
        && !(batteryLoop store minLevel (sortedEntities cfg store) []).1.isEmpty) with
    | false => simp [hn]
    | true => simp [hn]
  · simp at h4

theorem unavailRun_no_setState (cfg : Cfg) (store : Store) (e v : String) :
    Effect.setState e v ∉ (check_unavailable cfg store).effects := by
  intro hm
  simp only [check_unavailable, List.mem_cons, List.mem_append] at hm
  rcases hm with h1 | (h2 | h3) | h4
  · exact Effect.noConfusion h1
  · obtain ⟨o, ho⟩ := unavailLoop_effects_logOnly store
      (sortedEntities cfg store) [] _ h2
    exact Effect.noConfusion ho
  · revert h3
    cases hn : (notifyTruthy cfg.notify
        && !(unavailLoop store (sortedEntities cfg store) []).1.isEmpty) with
    | false => simp [hn]
    | true => simp [hn]
  · simp at h4

/-! Concrete fixtures used by the witness theorems. -/

/-- Concrete app configuration for the witnesses: notify configured, both
checks configured, and only the built-in exclusions. -/
def cfgW : Cfg :=
  { notify := some "notify.me"
    show_friendly_name := true
    battery := some { interval_min := 180, min_level := 20 }
    unavailable := some { interval_min := 60 }
    exclude := mergedExclude [] }

/-- Concrete entity-state store for the witnesses. -/
def storeW : Store :=
  [ ("sensor.phone", { state := "ok", battery_level := some 0 }),
    ("sensor.lamp", { state := "unavailable", battery_level := some 10 }),
    ("binary_sensor.updater", { state := "unknown", battery_level := some 5 }) ]

/-- The battery-check run on the fixture configuration and store. -/
def runBW : CheckRun := batteryRun cfgW 20 storeW

/-! Claim theorems. -/

/-- Claim C1 as frozen is false on the code: in this battery-check run,
entity `sensor.phone` is present, not excluded, and its `battery_level`
attribute `0` is at most the configured threshold `20`, yet the entity is
not added to the results and not logged, because `battery_level` `0` is
falsy and the condition short-circuits before the comparison. -/
theorem battery_c1_counterexample :
    cfgW.battery = some { interval_min := 180, min_level := 20 } ∧
    check_battery cfgW storeW = some runBW ∧
    "sensor.phone" ∈ entityIds storeW ∧
    strLower "sensor.phone" ∉ cfgW.exclude ∧
    lookupEntity storeW "sensor.phone" =
      some { state := "ok", battery_level := some 0 } ∧
    ((0 : Int) ≤ 20) ∧
    "sensor.phone" ∉ runBW.results ∧
    "sensor.phone" ∉ loggedEntities runBW.effects := by
  refine ⟨rfl, rfl, by decide, by decide, by decide, by decide, ?_, ?_⟩
  · intro hm
    rw [runBW, batteryRun_results, List.mem_filter] at hm
    exact absurd hm.2 (by decide)
  · intro hm
    rw [runBW, batteryRun_logged, List.mem_filter] at hm
    exact absurd hm.2 (by decide)

/-- Claim C1 (amended): for every scheduled run of the battery check, an
entity is added to the results (and logged as low) exactly when it is an
entity of the store, it is not excluded, and its state's `battery_level`
attribute is truthy (present and nonzero) and less than or equal to the
configured `min_level` threshold. -/
theorem battery_results_iff (cfg : Cfg) (bat : BatteryCfg) (store : Store)
    (run : CheckRun) (e : String) (hb : cfg.battery = some bat)
    (hr : check_battery cfg store = some run) :
    (e ∈ run.results ↔
      e ∈ entityIds store ∧ strLower e ∉ cfg.exclude ∧
        ∃ st, lookupEntity store e = some st ∧
          ∃ bl, st.battery_level = some bl ∧ bl ≠ 0 ∧ bl ≤ bat.min_level)
    ∧ (e ∈ loggedEntities run.effects ↔
      e ∈ entityIds store ∧ strLower e ∉ cfg.exclude ∧
        ∃ st, lookupEntity store e = some st ∧
          ∃ bl, st.battery_level = some bl ∧ bl ≠ 0 ∧ bl ≤ bat.min_level) := by
  have hrun : run = batteryRun cfg bat.min_level store := by
    rw [check_battery, hb] at hr
    exact (Option.some.inj hr).symm
  subst hrun
  constructor
  · rw [batteryRun_results, List.mem_filter, mem_sortedEntities, batteryHit_iff]
    constructor
    · rintro ⟨⟨hid, hex⟩, st, hst, hcond⟩
      exact ⟨hid, hex, st, hst, (batteryCond_iff _ _).mp hcond⟩
    · rintro ⟨hid, hex, st, hst, hbl⟩
      exact ⟨⟨hid, hex⟩, st, hst, (batteryCond_iff _ _).mpr hbl⟩
  · rw [batteryRun_logged, List.mem_filter, mem_sortedEntities, batteryHit_iff]
    constructor
    · rintro ⟨⟨hid, hex⟩, st, hst, hcond⟩
      exact ⟨hid, hex, st, hst, (batteryCond_iff _ _).mp hcond⟩
    · rintro ⟨hid, hex, st, hst, hbl⟩
      exact ⟨⟨hid, hex⟩, st, hst, (batteryCond_iff _ _).mpr hbl⟩

/-- Witness for the amended C1 theorem at the fixture run and entity
`sensor.lamp`. -/
theorem battery_results_iff_witness :
    ("sensor.lamp" ∈ runBW.results ↔
      "sensor.lamp" ∈ entityIds storeW ∧ strLower "sensor.lamp" ∉ cfgW.exclude ∧
        ∃ st, lookupEntity storeW "sensor.lamp" = some st ∧
          ∃ bl, st.battery_level = some bl ∧ bl ≠ 0 ∧
            bl ≤ (BatteryCfg.mk 180 20).min_level)
    ∧ ("sensor.lamp" ∈ loggedEntities runBW.effects ↔
      "sensor.lamp" ∈ entityIds storeW ∧ strLower "sensor.lamp" ∉ cfgW.exclude ∧
        ∃ st, lookupEntity storeW "sensor.lamp" = some st ∧
          ∃ bl, st.battery_level = some bl ∧ bl ≠ 0 ∧
            bl ≤ (BatteryCfg.mk 180 20).min_level) :=
  battery_results_iff cfgW (BatteryCfg.mk 180 20) storeW runBW "sensor.lamp" rfl rfl

/-- Claim C8: an entity whose `battery_level` attribute is missing or `0`
(falsy) is never reported by the battery check, even though `0` would
pass the threshold comparison. -/
theorem battery_falsy_never_reported (cfg : Cfg) (bat : BatteryCfg)
    (store : Store) (run : CheckRun) (e : String) (st : EntityState)
    (hb : cfg.battery = some bat) (hr : check_battery cfg store = some run)
    (hst : lookupEntity store e = some st)
    (hbl : st.battery_level = none ∨ st.battery_level = some 0) :
    e ∉ run.results ∧ e ∉ loggedEntities run.effects := by
  have hrun : run = batteryRun cfg bat.min_level store := by
    rw [check_battery, hb] at hr
    exact (Option.some.inj hr).symm
  subst hrun
  have hhit : batteryHit store bat.min_level e = false := by
    rcases hbl with h0 | h0 <;> simp [batteryHit, hst, batteryCond, h0]
  constructor
  · intro hm
    rw [batteryRun_results, List.mem_filter, hhit] at hm
    exact absurd hm.2 (by simp)
  · intro hm
    rw [batteryRun_logged, List.mem_filter, hhit] at hm
    exact absurd hm.2 (by simp)

/-- Witness for the C8 theorem: `sensor.phone` has `battery_level` `0` in
the fixture store and is reported nowhere. -/
theorem battery_falsy_never_reported_witness :
    "sensor.phone" ∉ runBW.results ∧
    "sensor.phone" ∉ loggedEntities runBW.effects :=
  battery_falsy_never_reported cfgW (BatteryCfg.mk 180 20) storeW runBW
    "sensor.phone" (EntityState.mk "ok" (some 0)) rfl rfl (by decide) (Or.inr rfl)

/-- Claim C2: for every run of the unavailable check, an entity is added
to the results (and logged) exactly when it is an entity of the store, it
is not excluded, and its state is one of the bad states `"unavailable"`
or `"unknown"`. -/
theorem unavailable_results_iff (cfg : Cfg) (store : Store) (e : String) :
    (e ∈ (check_unavailable cfg store).results ↔
      e ∈ entityIds store ∧ strLower e ∉ cfg.exclude ∧
        ∃ st, lookupEntity store e = some st ∧ st.state ∈ BAD_STATES)
    ∧ (e ∈ loggedEntities (check_unavailable cfg store).effects ↔
      e ∈ entityIds store ∧ strLower e ∉ cfg.exclude ∧
        ∃ st, lookupEntity store e = some st ∧ st.state ∈ BAD_STATES) := by
  constructor
  · rw [unavailRun_results_mem, mem_sortedEntities, unavailHit_iff]
    exact and_assoc
  · rw [unavailRun_logged_mem, mem_sortedEntities, unavailHit_iff]
    exact and_assoc

/-- Claim C3: for every run of either check, a notification service call
is dispatched if and only if a notify target is configured (truthy) and
the run's results list is non-empty; the single dispatched call targets
the configured notify service and its message contains the count of
flagged entities and the comma-joined list of their entity ids. -/
theorem notify_call_iff (cfg : Cfg) (bat : BatteryCfg) (store : Store)
    (runB : CheckRun) (hb : cfg.battery = some bat)
    (hr : check_battery cfg store = some runB) :
    (serviceCalls runB.effects =
      if notifyTruthy cfg.notify && !runB.results.isEmpty then
        [(notifyService cfg.notify,
          "🔋 Battery low (" ++ toString runB.results.length ++ "): " ++
            String.intercalate ", " runB.results)]
      else [])
    ∧ (serviceCalls (check_unavailable cfg store).effects =
      if notifyTruthy cfg.notify
          && !(check_unavailable cfg store).results.isEmpty then
        [(notifyService cfg.notify,
          "👩‍⚕️ Unavailable entities ("
            ++ toString (check_unavailable cfg store).results.length ++ "): "
            ++ String.intercalate ", " (check_unavailable cfg store).results)]
      else []) := by
  have hrun : runB = batteryRun cfg bat.min_level store := by
    rw [check_battery, hb] at hr
    exact (Option.some.inj hr).symm
  subst hrun
  constructor
  · simpa [batteryMessage] using batteryRun_serviceCalls cfg bat.min_level store
  · simpa [unavailMessage] using unavailRun_serviceCalls cfg store

/-- Witness for the C3 theorem at the fixture run. -/
theorem notify_call_iff_witness :
    (serviceCalls runBW.effects =
      if notifyTruthy cfgW.notify && !runBW.results.isEmpty then
        [(notifyService cfgW.notify,
          "🔋 Battery low (" ++ toString runBW.results.length ++ "): " ++
            String.intercalate ", " runBW.results)]
      else [])
    ∧ (serviceCalls (check_unavailable cfgW storeW).effects =
      if notifyTruthy cfgW.notify
          && !(check_unavailable cfgW storeW).results.isEmpty then
        [(notifyService cfgW.notify,
          "👩‍⚕️ Unavailable entities ("
            ++ toString (check_unavailable cfgW storeW).results.length ++ "): "
            ++ String.intercalate ", " (check_unavailable cfgW storeW).results)]
      else []) :=
  notify_call_iff cfgW (BatteryCfg.mk 180 20) storeW runBW rfl rfl

/-- Claim C4: for every run of either check, an entity whose lowercased
id is in the merged exclusion set (the two built-in defaults united with
the lowercased configured exclude list) never appears in the results, in
per-entity log lines, or among the entity ids joined into the
notification message. -/
theorem excluded_never_reported (cfg : Cfg) (bat : BatteryCfg)
    (store : Store) (runB : CheckRun) (ex : List String) (e : String)
    (hb : cfg.battery = some bat) (hr : check_battery cfg store = some runB)
    (hcfg : cfg.exclude = mergedExclude ex)
    (hmem : strLower e ∈ mergedExclude ex) :
    (e ∉ runB.results ∧ e ∉ loggedEntities runB.effects ∧
      ∀ s m, (s, m) ∈ serviceCalls runB.effects →
        ∃ rs, m = batteryMessage rs ∧ e ∉ rs)
    ∧ (e ∉ (check_unavailable cfg store).results ∧
      e ∉ loggedEntities (check_unavailable cfg store).effects ∧
      ∀ s m, (s, m) ∈ serviceCalls (check_unavailable cfg store).effects →
        ∃ rs, m = unavailMessage rs ∧ e ∉ rs) := by
  have hrun : runB = batteryRun cfg bat.min_level store := by
    rw [check_battery, hb] at hr
    exact (Option.some.inj hr).symm
  subst hrun
  have hexc : strLower e ∈ cfg.exclude := by rw [hcfg]; exact hmem
  have hbat : e ∉ (batteryRun cfg bat.min_level store).results := by
    intro hm
    rw [batteryRun_results, List.mem_filter, mem_sortedEntities] at hm
    exact hm.1.2 hexc
  have hunav : e ∉ (check_unavailable cfg store).results := by
    intro hm
    rw [unavailRun_results_mem, mem_sortedEntities] at hm
    exact hm.1.2 hexc
  refine ⟨⟨hbat, ?_, ?_⟩, hunav, ?_, ?_⟩
  · intro hm
    rw [batteryRun_logged, List.mem_filter, mem_sortedEntities] at hm
    exact hm.1.2 hexc
  · intro s m hm
    rw [batteryRun_serviceCalls] at hm
    refine ⟨(batteryRun cfg bat.min_level store).results, ?_, hbat⟩
    revert hm
    cases hn : (notifyTruthy cfg.notify
        && !(batteryRun cfg bat.min_level store).results.isEmpty) with
    | false => simp
    | true =>
      intro hm
      simp only [if_true, List.mem_singleton] at hm
      exact congrArg Prod.snd hm
  · intro hm
    rw [unavailRun_logged_mem, mem_sortedEntities] at hm
    exact hm.1.2 hexc
  · intro s m hm
    rw [unavailRun_serviceCalls] at hm
    refine ⟨(check_unavailable cfg store).results, ?_, hunav⟩
    revert hm
    cases hn : (notifyTruthy cfg.notify
        && !(check_unavailable cfg store).results.isEmpty) with
    | false => simp
    | true =>
      intro hm
      simp only [if_true, List.mem_singleton] at hm
      exact congrArg Prod.snd hm

/-- Witness for the C4 theorem: the built-in excluded entity
`binary_sensor.updater` is part of the fixture store yet reported
nowhere. -/
theorem excluded_never_reported_witness :
    ("binary_sensor.updater" ∉ runBW.results ∧
      "binary_sensor.updater" ∉ loggedEntities runBW.effects ∧
      ∀ s m, (s, m) ∈ serviceCalls runBW.effects →
        ∃ rs, m = batteryMessage rs ∧ "binary_sensor.updater" ∉ rs)
    ∧ ("binary_sensor.updater" ∉ (check_unavailable cfgW storeW).results ∧
      "binary_sensor.updater" ∉
        loggedEntities (check_unavailable cfgW storeW).effects ∧
      ∀ s m, (s, m) ∈ serviceCalls (check_unavailable cfgW storeW).effects →
        ∃ rs, m = unavailMessage rs ∧ "binary_sensor.updater" ∉ rs) :=
  excluded_never_reported cfgW (BatteryCfg.mk 180 20) storeW runBW []
    "binary_sensor.updater" rfl rfl rfl (by decide)

/-- Claim C5: if the battery (respectively unavailable) section is
enabled in the configuration, initialize registers the corresponding
check to run first 120 seconds after initialization and then every
`interval_min * 60` seconds, where `interval_min` is the config key
`interval_min` when present, else the legacy key `interval` times 60,
else the default (180 for battery, 60 for unavailable). -/
theorem init_schedules (args : Args) (bc uc : ConfigMap) :
    (args.battery = some bc →
      { kind := CheckKind.battery, delaySec := 120,
        periodSec := (match cfgGet bc "interval_min" with
          | some v => v
          | none => match cfgGet bc "interval" with
            | some i => i * 60
            | none => 180) * 60 } ∈ (enchInit args).schedules)
    ∧ (args.unavailable = some uc → uc ≠ [] →
      { kind := CheckKind.unavailable, delaySec := 120,
        periodSec := (match cfgGet uc "interval_min" with
          | some v => v
          | none => match cfgGet uc "interval" with
            | some i => i * 60
            | none => 60) * 60 } ∈ (enchInit args).schedules) := by
  constructor
  · intro hb
    simp only [enchInit, hb, resolveIntervalMin, INTERVAL_BATTERY_MIN,
      List.singleton_append]
    exact List.mem_cons_self _ _
  · intro hu hne
    have hne' : uc.isEmpty = false := by
      cases uc with
      | nil => exact absurd rfl hne
      | cons a t => rfl
    cases hb2 : args.battery with
    | none =>
      simp only [enchInit, hu, hb2, hne', resolveIntervalMin,
        INTERVAL_UNAVAILABLE_MIN, Bool.false_eq_true, if_false,
        List.nil_append, List.singleton_append]
      exact List.mem_cons_self _ _
    | some bc2 =>
      simp only [enchInit, hu, hb2, hne', resolveIntervalMin,
        INTERVAL_BATTERY_MIN, INTERVAL_UNAVAILABLE_MIN, Bool.false_eq_true,
        if_false, List.singleton_append]
      exact List.mem_cons_of_mem _ (List.mem_cons_self _ _)

/-- Concrete args for the initialize witnesses: a battery section using
the legacy `interval` key (3 hours) and an unavailable section with no
interval keys. -/
def argsW : Args :=
  { notify := some "notify.me"
    show_friendly_name := none
    battery := some [("interval", 3)]
    unavailable := some [("foo", 1)]
    exclude := [] }

/-- Witness for the C5 theorem: on `argsW` the battery check is
registered with period `3 * 60 * 60` seconds and the unavailable check
with the default `60 * 60` seconds, both delayed 120 seconds. -/
theorem init_schedules_witness :
    ({ kind := CheckKind.battery, delaySec := 120, periodSec := 10800 }
        : Schedule) ∈ (enchInit argsW).schedules ∧
    ({ kind := CheckKind.unavailable, delaySec := 120, periodSec := 3600 }
        : Schedule) ∈ (enchInit argsW).schedules :=
  ⟨(init_schedules argsW [("interval", 3)] [("foo", 1)]).1 rfl,
   (init_schedules argsW [("interval", 3)] [("foo", 1)]).2 rfl (by decide)⟩

/-- Claim C6: for every run of either check, the only external effects
are log lines and at most one service call, which targets the configured
notify service; the run never writes entity state and leaves the app
configuration unchanged. -/
theorem checks_frame (cfg : Cfg) (bat : BatteryCfg) (store : Store)
    (runB : CheckRun) (hb : cfg.battery = some bat)
    (hr : check_battery cfg store = some runB) :
    ((serviceCalls runB.effects).length ≤ 1 ∧
      (∀ s m, (s, m) ∈ serviceCalls runB.effects →
        s = notifyService cfg.notify) ∧
      (∀ e v, Effect.setState e v ∉ runB.effects) ∧
      runB.cfgAfter = cfg)
    ∧ ((serviceCalls (check_unavailable cfg store).effects).length ≤ 1 ∧
      (∀ s m, (s, m) ∈ serviceCalls (check_unavailable cfg store).effects →
        s = notifyService cfg.notify) ∧
      (∀ e v, Effect.setState e v ∉ (check_unavailable cfg store).effects) ∧
      (check_unavailable cfg store).cfgAfter = cfg) := by
  have hrun : runB = batteryRun cfg bat.min_level store := by
    rw [check_battery, hb] at hr
    exact (Option.some.inj hr).symm
  subst hrun
  refine ⟨⟨?_, ?_, ?_, rfl⟩, ?_, ?_, ?_, rfl⟩
  · rw [batteryRun_serviceCalls]
    cases hn : (notifyTruthy cfg.notify
        && !(batteryRun cfg bat.min_level store).results.isEmpty) <;> simp
  · intro s m hm
    rw [batteryRun_serviceCalls] at hm
    revert hm
    cases hn : (notifyTruthy cfg.notify
        && !(batteryRun cfg bat.min_level store).results.isEmpty) with
    | false => simp
    | true =>
      intro hm
      simp only [if_true, List.mem_singleton] at hm
      exact congrArg Prod.fst hm
  · exact fun e v => batteryRun_no_setState cfg bat.min_level store e v
  · rw [unavailRun_serviceCalls]
    cases hn : (notifyTruthy cfg.notify
        && !(check_unavailable cfg store).results.isEmpty) <;> simp
  · intro s m hm
    rw [unavailRun_serviceCalls] at hm
    revert hm
    cases hn : (notifyTruthy cfg.notify
        && !(check_unavailable cfg store).results.isEmpty) with
    | false => simp
    | true =>
      intro hm
      simp only [if_true, List.mem_singleton] at hm
      exact congrArg Prod.fst hm
  · exact fun e v => unavailRun_no_setState cfg store e v

/-- Witness for the C6 theorem at the fixture run. -/
theorem checks_frame_witness :
    ((serviceCalls runBW.effects).length ≤ 1 ∧
      (∀ s m, (s, m) ∈ serviceCalls runBW.effects →
        s = notifyService cfgW.notify) ∧
      (∀ e v, Effect.setState e v ∉ runBW.effects) ∧
      runBW.cfgAfter = cfgW)
    ∧ ((serviceCalls (check_unavailable cfgW storeW).effects).length ≤ 1 ∧
      (∀ s m, (s, m) ∈ serviceCalls (check_unavailable cfgW storeW).effects →
        s = notifyService cfgW.notify) ∧
      (∀ e v, Effect.setState e v ∉ (check_unavailable cfgW storeW).effects) ∧
      (check_unavailable cfgW storeW).cfgAfter = cfgW) :=
  checks_frame cfgW (BatteryCfg.mk 180 20) storeW runBW rfl rfl

/-- Claim C7: when the store's entity ids are distinct (they are keys of
the runtime's state dictionary), the results of either check are
duplicate-free and listed in ascending lexicographic order of entity id,
because the checks iterate the entity ids in sorted order. -/
theorem results_sorted_nodup (cfg : Cfg) (bat : BatteryCfg) (store : Store)
    (runB : CheckRun) (hb : cfg.battery = some bat)
    (hr : check_battery cfg store = some runB)
    (hnd : (entityIds store).Nodup) :
    (runB.results.Nodup ∧
      List.Sorted (fun a b : String => a < b) runB.results)
    ∧ ((check_unavailable cfg store).results.Nodup ∧
      List.Sorted (fun a b : String => a < b)
        (check_unavailable cfg store).results) := by
  have hrun : runB = batteryRun cfg bat.min_level store := by
    rw [check_battery, hb] at hr
    exact (Option.some.inj hr).symm
  subst hrun
  have hsorted := sortedEntities_sorted_lt cfg store hnd
  have hnodup := sortedEntities_nodup cfg store hnd
  constructor
  · rw [batteryRun_results]
    have hsub : ((sortedEntities cfg store).filter
        (batteryHit store bat.min_level)).Sublist (sortedEntities cfg store) :=
      List.filter_sublist _
    exact ⟨hnodup.sublist hsub, hsorted.sublist hsub⟩
  · obtain ⟨t, ht, hs⟩ :=
      unavailLoop_results_structure store (sortedEntities cfg store) []
    have hres : (check_unavailable cfg store).results = t := by
      show (unavailLoop store (sortedEntities cfg store) []).1 = t
      rw [ht]
      exact List.nil_append t
    rw [hres]
    exact ⟨hnodup.sublist hs, hsorted.sublist hs⟩

/-- Witness for the C7 theorem at the fixture run. -/
theorem results_sorted_nodup_witness :
    (runBW.results.Nodup ∧
      List.Sorted (fun a b : String => a < b) runBW.results)
    ∧ ((check_unavailable cfgW storeW).results.Nodup ∧
      List.Sorted (fun a b : String => a < b)
        (check_unavailable cfgW storeW).results) :=
  results_sorted_nodup cfgW (BatteryCfg.mk 180 20) storeW runBW rfl rfl
    (by decide)

/-- Claim C9: if the configuration contains no battery section,
initialize ends by raising NameError rather than completing, because the
final warning block reads the local `battery_cfg` unconditionally and
that local is only bound when `"battery"` is present in the args. -/
theorem init_missing_battery_raises (args : Args)
    (h : args.battery = none) :
    (enchInit args).outcome = Except.error InitError.nameError := by
  simp [enchInit, h]

/-- Witness for the C9 theorem: args with an unavailable section but no
battery section make initialize fail with NameError. -/
theorem init_missing_battery_raises_witness :
    (enchInit (Args.mk none none none (some [("interval_min", 5)]) [])).outcome
      = Except.error InitError.nameError :=
  init_missing_battery_raises (Args.mk none none none (some [("interval_min", 5)]) []) rfl
